import Mathlib

/-!
Verification of the a3m workflow-engine specification against a shallow
embedding of the source.

Part 1 embeds the `PackageQueue` class of `a3m/server/queues.py`.  The
queue state is represented explicitly; Python's `queue.Queue` objects
become Lean lists with the CPython size discipline (a `maxsize` of zero
means unbounded, `put_nowait` refuses when `len >= maxsize`), the
`active_packages` dict becomes a duplicate-free list of package uuids,
and each method becomes a pure state transformer.  Methods that can
raise return the post-state paired with an optional error, matching
CPython semantics where in-place mutations performed before the raise
survive the exception.
-/

namespace A3M.Queues

/-- Package classes used by `_put_package_nowait` to select a waiting
queue (`isinstance(package, DIP)` / `SIP` / fallback `Transfer`). -/
inductive PackageType where
  | dip
  | sip
  | transfer
deriving DecidableEq, Repr

/-- Fragment of a workflow link visible to the queue: its id and
`is_terminal` flag (`job.link.is_terminal` in `process_one_job`). -/
structure QLink where
  id : Nat
  is_terminal : Bool
deriving DecidableEq, Repr

/-- Fragment of a `Job` visible to the queue: its uuid, its package's
uuid and class, and its workflow link. -/
structure QJob where
  uuid : Nat
  packageUuid : Nat
  packageType : PackageType
  link : QLink
deriving DecidableEq, Repr

/-- Errors raised by queue methods: `RuntimeError("Queue stopped.")`,
`queue.Full` from a `put_nowait`, and a marker for a blocking
`put` that cannot proceed because the queue is full. -/
inductive QErr where
  | queueStopped
  | queueFull
  | wouldBlock
deriving DecidableEq, Repr

/-- State of a `PackageQueue` instance: configuration, the shutdown
event, the `active_packages` dict (keys only), the bounded active job
queue and the three waiting queues. -/
structure QState where
  maxConcurrentPackages : Nat
  maxQueuedPackages : Nat
  shutdownEvent : Bool
  activePackages : List Nat
  jobQueue : List QJob
  transferQueue : List QJob
  sipQueue : List QJob
  dipQueue : List QJob
deriving DecidableEq, Repr

/-- CPython `queue.Queue` admission test: `maxsize <= 0` means
unbounded, otherwise there is space while `qsize < maxsize`. -/
def queueHasSpace (maxsize : Nat) (q : List QJob) : Bool :=
  maxsize == 0 || q.length < maxsize

/-- State produced by `PackageQueue.__init__`: empty queues, no active
packages, shutdown event unset. -/
def initState (maxConcurrentPackages maxQueuedPackages : Nat) : QState :=
  { maxConcurrentPackages := maxConcurrentPackages
    maxQueuedPackages := maxQueuedPackages
    shutdownEvent := false
    activePackages := []
    jobQueue := []
    transferQueue := []
    sipQueue := []
    dipQueue := [] }

/-- Embedding of `PackageQueue.activate_package`: insert the uuid into
`active_packages` unless already present (then only a warning is
logged and the state is unchanged). -/
def activatePackage (s : QState) (packageUuid : Nat) : QState :=
  if packageUuid ∈ s.activePackages then s
  else { s with activePackages := packageUuid :: s.activePackages }

/-- Embedding of `PackageQueue.deactivate_package`: delete the uuid
from `active_packages` if present (otherwise only a warning is logged
and the state is unchanged). -/
def deactivatePackage (s : QState) (packageUuid : Nat) : QState :=
  if packageUuid ∈ s.activePackages then
    { s with activePackages := s.activePackages.erase packageUuid }
  else s

/-- Embedding of `PackageQueue._put_package_nowait`: enqueue the job on
the waiting queue chosen by the package class with `put_nowait`
semantics (raise `queue.Full` without mutating when full). -/
def putPackageNowait (s : QState) (job : QJob) : QState × Option QErr :=
  match job.packageType with
  | PackageType.dip =>
      if queueHasSpace s.maxQueuedPackages s.dipQueue then
        ({ s with dipQueue := s.dipQueue ++ [job] }, none)
      else (s, some QErr.queueFull)
  | PackageType.sip =>
      if queueHasSpace s.maxQueuedPackages s.sipQueue then
        ({ s with sipQueue := s.sipQueue ++ [job] }, none)
      else (s, some QErr.queueFull)
  | PackageType.transfer =>
      if queueHasSpace s.maxQueuedPackages s.transferQueue then
        ({ s with transferQueue := s.transferQueue ++ [job] }, none)
      else (s, some QErr.queueFull)

/-- Embedding of `PackageQueue._get_package_job_nowait`: try the DIP
queue first, then SIP, then Transfer; return the dequeued job, if any,
with the updated state. -/
def getPackageJobNowait (s : QState) : Option QJob × QState :=
  match s.dipQueue with
  | job :: rest => (some job, { s with dipQueue := rest })
  | [] =>
    match s.sipQueue with
    | job :: rest => (some job, { s with sipQueue := rest })
    | [] =>
      match s.transferQueue with
      | job :: rest => (some job, { s with transferQueue := rest })
      | [] => (none, s)

/-- Embedding of `PackageQueue.queue_next_job`: dequeue a waiting job
by priority; if one was found, activate its package and `put_nowait`
the job on the active job queue.  When the job queue is full the
`put_nowait` raises `queue.Full`, but the activation performed on the
line before survives, exactly as in the source. -/
def queueNextJob (s : QState) : QState × Option QErr :=
  match getPackageJobNowait s with
  | (none, s1) => (s1, none)
  | (some job, s1) =>
      let s2 := activatePackage s1 job.packageUuid
      if queueHasSpace s2.maxConcurrentPackages s2.jobQueue then
        ({ s2 with jobQueue := s2.jobQueue ++ [job] }, none)
      else (s2, some QErr.queueFull)

/-- Embedding of `PackageQueue.schedule_job`.  Raises
`RuntimeError("Queue stopped.")` when the shutdown event is set; puts
jobs of active packages on the active job queue (a blocking put, which
we flag with `wouldBlock` when it cannot proceed); otherwise queues the
package on a waiting queue and promotes one waiting package when there
is free concurrency (`active_package_count` read before the put). -/
def scheduleJob (s : QState) (job : QJob) : QState × Option QErr :=
  if s.shutdownEvent then (s, some QErr.queueStopped)
  else if job.packageUuid ∈ s.activePackages then
    if queueHasSpace s.maxConcurrentPackages s.jobQueue then
      ({ s with jobQueue := s.jobQueue ++ [job] }, none)
    else (s, some QErr.wouldBlock)
  else
    let activePackageCount := s.activePackages.length
    match putPackageNowait s job with
    | (s1, some e) => (s1, some e)
    | (s1, none) =>
        if activePackageCount < s.maxConcurrentPackages then queueNextJob s1
        else (s1, none)

/-- Dequeue step of `PackageQueue.process_one_job`: a `get` on the
active job queue, returning `none` on timeout when the queue is
empty. -/
def pullJob (s : QState) : Option QJob × QState :=
  match s.jobQueue with
  | [] => (none, s)
  | job :: rest => (some job, { s with jobQueue := rest })

/-- Embedding of `PackageQueue._job_completed_callback`: when `Job.run`
returned a next job, schedule it; otherwise do nothing. -/
def jobCompletedCallback (s : QState) (result : Option QJob) : QState × Option QErr :=
  match result with
  | none => (s, none)
  | some nextJob => scheduleJob s nextJob

/-- Embedding of `PackageQueue._package_completed_callback`: when the
future unexpectedly carries another job only a warning is logged;
otherwise the package is deactivated and `queue_next_job` promotes a
waiting package. -/
def packageCompletedCallback (s : QState) (packageUuid : Nat)
    (result : Option QJob) : QState × Option QErr :=
  match result with
  | some _ => (s, none)
  | none => queueNextJob (deactivatePackage s packageUuid)

/-- Completion callbacks attached by `process_one_job` to the future of
`Job.run`: `_job_completed_callback` always runs, and
`_package_completed_callback` additionally runs when the job's link is
terminal.  Exceptions raised inside done-callbacks are logged and
swallowed by `concurrent.futures`, so only the state is returned. -/
def completionCallbacks (s : QState) (job : QJob) (result : Option QJob) : QState :=
  let s1 := (jobCompletedCallback s result).1
  if job.link.is_terminal then
    (packageCompletedCallback s1 job.packageUuid result).1
  else s1

/-- Embedding of one iteration of `PackageQueue.process_one_job`
together with the completion of the submitted `job.run` (whose return
value is supplied by the oracle `run`). -/
def processOneJob (run : QJob → Option QJob) (s : QState) : QState :=
  match pullJob s with
  | (none, s1) => s1
  | (some job, s1) => completionCallbacks s1 job (run job)

/-- Embedding of `PackageQueue.stop`: set the shutdown event. -/
def stopQueue (s : QState) : QState :=
  { s with shutdownEvent := true }

/-- Fuel-bounded embedding of the `PackageQueue.work` loop: while the
shutdown event is unset, process one job per iteration. -/
def work (run : QJob → Option QJob) : Nat → QState → QState
  | 0, s => s
  | fuel + 1, s =>
      if s.shutdownEvent then s
      else work run fuel (processOneJob run s)

/-- Claim C2: whenever the PackageQueue promotes a waiting package, it
takes a job from the DIP queue if non-empty, otherwise from the SIP
queue if non-empty, otherwise from the Transfer queue; in particular,
with all three queues non-empty, `queue_next_job` promotes the DIP
item: the DIP queue's head is removed, its package is activated, and
the other waiting queues are untouched. -/
theorem c2_promotion_priority (s : QState) :
    (∀ j rest, s.dipQueue = j :: rest → (getPackageJobNowait s).1 = some j)
    ∧ (∀ j rest, s.dipQueue = [] → s.sipQueue = j :: rest →
        (getPackageJobNowait s).1 = some j)
    ∧ (∀ j rest, s.dipQueue = [] → s.sipQueue = [] →
        s.transferQueue = j :: rest → (getPackageJobNowait s).1 = some j)
    ∧ (s.dipQueue = [] → s.sipQueue = [] → s.transferQueue = [] →
        (getPackageJobNowait s).1 = none)
    ∧ (∀ j rest, s.dipQueue = j :: rest →
        (queueNextJob s).1.dipQueue = rest
        ∧ j.packageUuid ∈ (queueNextJob s).1.activePackages
        ∧ (queueNextJob s).1.sipQueue = s.sipQueue
        ∧ (queueNextJob s).1.transferQueue = s.transferQueue) := by
  refine ⟨?_, ?_, ?_, ?_, ?_⟩
  · intro j rest hd
    simp [getPackageJobNowait, hd]
  · intro j rest hd hs
    simp [getPackageJobNowait, hd, hs]
  · intro j rest hd hs ht
    simp [getPackageJobNowait, hd, hs, ht]
  · intro hd hs ht
    simp [getPackageJobNowait, hd, hs, ht]
  · intro j rest hd
    have hget : getPackageJobNowait s = (some j, { s with dipQueue := rest }) := by
      simp [getPackageJobNowait, hd]
    unfold queueNextJob
    rw [hget]
    by_cases hmem : j.packageUuid ∈ ({ s with dipQueue := rest } : QState).activePackages
    · simp only [activatePackage, hmem, if_pos]
      by_cases hspace :
          queueHasSpace s.maxConcurrentPackages s.jobQueue = true
      · simp [hspace, hmem]
      · simp [hspace, hmem]
    · simp only [activatePackage, hmem, if_neg, not_false_eq_true]
      by_cases hspace :
          queueHasSpace s.maxConcurrentPackages s.jobQueue = true
      · simp [hspace, hmem]
      · simp [hspace, hmem]

/-- Claim C2 witness: concrete instantiation with all three waiting
queues non-empty; the DIP head is the promoted job. -/
theorem c2_promotion_priority_witness :
    (getPackageJobNowait
        { initState 2 16 with
          dipQueue := [⟨1, 11, PackageType.dip, ⟨100, false⟩⟩]
          sipQueue := [⟨2, 12, PackageType.sip, ⟨100, false⟩⟩]
          transferQueue := [⟨3, 13, PackageType.transfer, ⟨100, false⟩⟩] }).1
      = some ⟨1, 11, PackageType.dip, ⟨100, false⟩⟩ :=
  (c2_promotion_priority _).1 _ [] rfl

/-- Claim C3: scheduling a job whose package is not active while the
shutdown event is unset and all three waiting queues are full raises
`queue.Full` and leaves the whole queue state (waiting queues, active
job queue and active-package set) unchanged. -/
theorem c3_queue_full_unchanged (s : QState) (job : QJob)
    (hshutdown : s.shutdownEvent = false)
    (hactive : job.packageUuid ∉ s.activePackages)
    (hbounded : 0 < s.maxQueuedPackages)
    (hdip : s.maxQueuedPackages ≤ s.dipQueue.length)
    (hsip : s.maxQueuedPackages ≤ s.sipQueue.length)
    (htransfer : s.maxQueuedPackages ≤ s.transferQueue.length) :
    scheduleJob s job = (s, some QErr.queueFull) := by
  have hput : putPackageNowait s job = (s, some QErr.queueFull) := by
    unfold putPackageNowait queueHasSpace
    rcases job.packageType with _ | _ | _ <;>
      simp [Nat.ne_of_gt hbounded, Nat.not_lt.mpr hdip, Nat.not_lt.mpr hsip,
        Nat.not_lt.mpr htransfer, (Nat.ne_of_gt hbounded).symm]
  unfold scheduleJob
  simp [hshutdown, hactive, hput]

/-- Claim C3 witness: a concrete one-slot configuration with every
waiting queue full; scheduling a new package's job fails with
`queue.Full` and the state is returned unchanged. -/
theorem c3_queue_full_unchanged_witness :
    scheduleJob
        { initState 1 1 with
          dipQueue := [⟨1, 11, PackageType.dip, ⟨100, false⟩⟩]
          sipQueue := [⟨2, 12, PackageType.sip, ⟨100, false⟩⟩]
          transferQueue := [⟨3, 13, PackageType.transfer, ⟨100, false⟩⟩] }
        ⟨4, 14, PackageType.transfer, ⟨100, false⟩⟩
      = ({ initState 1 1 with
           dipQueue := [⟨1, 11, PackageType.dip, ⟨100, false⟩⟩]
           sipQueue := [⟨2, 12, PackageType.sip, ⟨100, false⟩⟩]
           transferQueue := [⟨3, 13, PackageType.transfer, ⟨100, false⟩⟩] },
         some QErr.queueFull) :=
  c3_queue_full_unchanged _ _ rfl (by decide) (by decide) (by decide)
    (by decide) (by decide)

/-- Claim C4 amended: once `stop()` has set the shutdown event, every
call to `schedule_job` raises without enqueueing anything (the state
is returned unchanged), and the `work` loop observes the flag and
returns immediately without pulling or dispatching a job, for any fuel
and any job-run oracle; moreover `stop()` itself only sets the flag.
The claim's further conjunct that no job is admitted after shutdown in
any execution is refuted by `c4_shutdown_counterexample`: a completion
callback of an in-flight terminal job still calls `queue_next_job`,
which has no shutdown check. -/
theorem c4_shutdown (s : QState) (job : QJob) (run : QJob → Option QJob)
    (fuel : Nat) (hshutdown : s.shutdownEvent = true) :
    scheduleJob s job = (s, some QErr.queueStopped)
    ∧ work run fuel s = s
    ∧ (stopQueue s).shutdownEvent = true := by
  refine ⟨?_, ?_, rfl⟩
  · unfold scheduleJob
    simp [hshutdown]
  · cases fuel with
    | zero => rfl
    | succ n =>
        unfold work
        simp [hshutdown]

/-- Claim C4 witness: concrete stopped queue with a pending waiting
job; scheduling fails with the stopped error and `work` returns the
state unchanged. -/
theorem c4_shutdown_witness :
    scheduleJob (stopQueue (initState 1 4096))
        ⟨1, 11, PackageType.transfer, ⟨100, false⟩⟩
      = (stopQueue (initState 1 4096), some QErr.queueStopped)
    ∧ work (fun _ => none) 5 (stopQueue (initState 1 4096))
      = stopQueue (initState 1 4096) :=
  ⟨(c4_shutdown _ _ (fun _ => none) 5 rfl).1,
   (c4_shutdown (stopQueue (initState 1 4096))
      ⟨1, 11, PackageType.transfer, ⟨100, false⟩⟩ (fun _ => none) 5 rfl).2.1⟩

/-- Claim C9: `activate_package` and `deactivate_package` are
idempotent on the active-package set: activating an already active
package and deactivating a package that is not active both leave the
state unchanged (only a warning is logged, no error is raised). -/
theorem c9_activation_idempotent (s : QState) (packageUuid : Nat) :
    (packageUuid ∈ s.activePackages → activatePackage s packageUuid = s)
    ∧ (packageUuid ∉ s.activePackages → deactivatePackage s packageUuid = s) := by
  constructor
  · intro h
    unfold activatePackage
    simp [h]
  · intro h
    unfold deactivatePackage
    simp [h]

/-- Claim C9 witness: concrete state where activating the active
package 7 and deactivating the inactive package 9 are both no-ops. -/
theorem c9_activation_idempotent_witness :
    activatePackage { initState 2 16 with activePackages := [7] } 7
      = { initState 2 16 with activePackages := [7] }
    ∧ deactivatePackage { initState 2 16 with activePackages := [7] } 9
      = { initState 2 16 with activePackages := [7] } :=
  ⟨(c9_activation_idempotent _ 7).1 (by decide),
   (c9_activation_idempotent _ 9).2 (by decide)⟩

/-- Concurrency invariant of the package queue: the number of active
packages never exceeds `max_concurrent_packages`. -/
def QInv (s : QState) : Prop :=
  s.activePackages.length ≤ s.maxConcurrentPackages

theorem activatePackage_max (s : QState) (p : Nat) :
    (activatePackage s p).maxConcurrentPackages = s.maxConcurrentPackages := by
  unfold activatePackage
  split <;> rfl

theorem activatePackage_len_le (s : QState) (p : Nat) :
    (activatePackage s p).activePackages.length ≤ s.activePackages.length + 1 := by
  unfold activatePackage
  split <;> simp

theorem activatePackage_mem (s : QState) (p a : Nat)
    (h : a ∈ s.activePackages) : a ∈ (activatePackage s p).activePackages := by
  unfold activatePackage
  split
  · exact h
  · exact List.mem_cons_of_mem _ h

theorem deactivatePackage_len_lt (s : QState) (p : Nat)
    (h : p ∈ s.activePackages) :
    (deactivatePackage s p).activePackages.length + 1 ≤ s.activePackages.length := by
  unfold deactivatePackage
  simp only [h, if_pos]
  have hlen := List.length_erase_of_mem h
  have hpos : 0 < s.activePackages.length := List.length_pos.mpr (by
    intro hnil
    rw [hnil] at h
    exact (List.not_mem_nil p) h)
  omega

theorem getPackageJobNowait_active (s : QState) :
    (getPackageJobNowait s).2.activePackages = s.activePackages
    ∧ (getPackageJobNowait s).2.maxConcurrentPackages = s.maxConcurrentPackages := by
  unfold getPackageJobNowait
  rcases s.dipQueue with _ | ⟨j, rest⟩
  · rcases hs : s.sipQueue with _ | ⟨j, rest⟩
    · rcases ht : s.transferQueue with _ | ⟨j, rest⟩ <;> simp [hs, ht]
    · simp [hs]
  · simp

theorem putPackageNowait_active (s : QState) (job : QJob) :
    (putPackageNowait s job).1.activePackages = s.activePackages
    ∧ (putPackageNowait s job).1.maxConcurrentPackages = s.maxConcurrentPackages := by
  unfold putPackageNowait
  constructor <;> (split <;> split <;> rfl)

theorem queueNextJob_max (s : QState) :
    (queueNextJob s).1.maxConcurrentPackages = s.maxConcurrentPackages := by
  unfold queueNextJob
  rcases hget : getPackageJobNowait s with ⟨jobOpt, s1⟩
  have h1 : s1.maxConcurrentPackages = s.maxConcurrentPackages := by
    have := (getPackageJobNowait_active s).2
    rw [hget] at this
    exact this
  rcases jobOpt with _ | job
  · simpa using h1
  · simp only
    split
    · simpa [activatePackage_max] using h1
    · simpa [activatePackage_max] using h1

theorem queueNextJob_len_le (s : QState) :
    (queueNextJob s).1.activePackages.length ≤ s.activePackages.length + 1 := by
  unfold queueNextJob
  rcases hget : getPackageJobNowait s with ⟨jobOpt, s1⟩
  have h1 : s1.activePackages = s.activePackages := by
    have := (getPackageJobNowait_active s).1
    rw [hget] at this
    exact this
  rcases jobOpt with _ | job
  · simp [h1]
  · simp only
    have := activatePackage_len_le s1 job.packageUuid
    split
    · simpa [h1] using this
    · simpa [h1] using this

theorem queueNextJob_mem (s : QState) (a : Nat)
    (h : a ∈ s.activePackages) : a ∈ (queueNextJob s).1.activePackages := by
  unfold queueNextJob
  rcases hget : getPackageJobNowait s with ⟨jobOpt, s1⟩
  have h1 : s1.activePackages = s.activePackages := by
    have := (getPackageJobNowait_active s).1
    rw [hget] at this
    exact this
  rcases jobOpt with _ | job
  · simpa [h1] using h
  · simp only
    have hm : a ∈ (activatePackage s1 job.packageUuid).activePackages :=
      activatePackage_mem s1 job.packageUuid a (h1 ▸ h)
    split
    · simpa using hm
    · simpa using hm

theorem scheduleJob_max (s : QState) (job : QJob) :
    (scheduleJob s job).1.maxConcurrentPackages = s.maxConcurrentPackages := by
  unfold scheduleJob
  split
  · rfl
  · split
    · split <;> rfl
    · simp only
      rcases hput : putPackageNowait s job with ⟨s1, e⟩
      have h1 : s1.maxConcurrentPackages = s.maxConcurrentPackages := by
        have := (putPackageNowait_active s job).2
        rw [hput] at this
        exact this
      rcases e with _ | e
      · simp only
        split
        · rw [queueNextJob_max s1, h1]
        · exact h1
      · exact h1

theorem scheduleJob_inv (s : QState) (job : QJob) (h : QInv s) :
    QInv (scheduleJob s job).1 := by
  unfold QInv at h ⊢
  unfold scheduleJob
  split
  · exact h
  · split
    · split <;> exact h
    · simp only
      rcases hput : putPackageNowait s job with ⟨s1, e⟩
      have h1 : s1.activePackages = s.activePackages := by
        have := (putPackageNowait_active s job).1
        rw [hput] at this
        exact this
      have h2 : s1.maxConcurrentPackages = s.maxConcurrentPackages := by
        have := (putPackageNowait_active s job).2
        rw [hput] at this
        exact this
      rcases e with _ | e
      · simp only
        split
        · rename_i hlt
          have hle := queueNextJob_len_le s1
          have hmax := queueNextJob_max s1
          rw [hmax, h2]
          rw [h1] at hle
          omega
        · rw [h1, h2]
          exact h
      · rw [h1, h2]
        exact h

theorem scheduleJob_mem (s : QState) (job : QJob) (a : Nat)
    (h : a ∈ s.activePackages) : a ∈ (scheduleJob s job).1.activePackages := by
  unfold scheduleJob
  split
  · exact h
  · split
    · split <;> exact h
    · simp only
      rcases hput : putPackageNowait s job with ⟨s1, e⟩
      have h1 : s1.activePackages = s.activePackages := by
        have := (putPackageNowait_active s job).1
        rw [hput] at this
        exact this
      rcases e with _ | e
      · simp only
        split
        · exact queueNextJob_mem s1 a (h1 ▸ h)
        · exact h1 ▸ h
      · exact h1 ▸ h

theorem completionCallbacks_inv (s : QState) (job : QJob) (result : Option QJob)
    (h : QInv s) (hmem : job.packageUuid ∈ s.activePackages) :
    QInv (completionCallbacks s job result) := by
  unfold completionCallbacks
  have hs1 : QInv (jobCompletedCallback s result).1
      ∧ job.packageUuid ∈ (jobCompletedCallback s result).1.activePackages := by
    unfold jobCompletedCallback
    rcases result with _ | nextJob
    · exact ⟨h, hmem⟩
    · exact ⟨scheduleJob_inv s nextJob h, scheduleJob_mem s nextJob _ hmem⟩
  split
  · unfold packageCompletedCallback
    rcases result with _ | r
    · simp only
      have hlt := deactivatePackage_len_lt (jobCompletedCallback s none).1
        job.packageUuid hs1.2
      have hle := queueNextJob_len_le
        (deactivatePackage (jobCompletedCallback s none).1 job.packageUuid)
      have hmax := queueNextJob_max
        (deactivatePackage (jobCompletedCallback s none).1 job.packageUuid)
      have hdmax : (deactivatePackage (jobCompletedCallback s none).1
          job.packageUuid).maxConcurrentPackages
          = (jobCompletedCallback s none).1.maxConcurrentPackages := by
        unfold deactivatePackage
        split <;> rfl
      have hinv1 := hs1.1
      unfold QInv at hinv1 ⊢
      rw [hmax, hdmax]
      omega
    · exact hs1.1
  · exact hs1.1

theorem pullJob_active (s : QState) :
    (pullJob s).2.activePackages = s.activePackages
    ∧ (pullJob s).2.maxConcurrentPackages = s.maxConcurrentPackages := by
  unfold pullJob
  rcases s.jobQueue with _ | ⟨j, rest⟩ <;> simp

/-- Reachability of a `PackageQueue` state by arbitrary sequences of
the public operations named by the specification claim: `schedule_job`
on any job, bare `queue_next_job`, job-completion callbacks for any
job and run result, together with the processing loop's dequeue and
`stop`. -/
inductive QReachable : QState → Prop where
  | init (maxConcurrentPackages maxQueuedPackages : Nat) :
      QReachable (initState maxConcurrentPackages maxQueuedPackages)
  | sched (s : QState) (job : QJob) (h : QReachable s) :
      QReachable (scheduleJob s job).1
  | next (s : QState) (h : QReachable s) : QReachable (queueNextJob s).1
  | pull (s : QState) (h : QReachable s) : QReachable (pullJob s).2
  | callback (s : QState) (job : QJob) (result : Option QJob)
      (h : QReachable s) : QReachable (completionCallbacks s job result)
  | stop (s : QState) (h : QReachable s) : QReachable (stopQueue s)

/-- State reached from a fresh queue with `max_concurrent_packages = 1`
by scheduling jobs for two distinct inactive packages and then calling
`queue_next_job` directly while the concurrency cap is already
saturated. -/
def c1CexState : QState :=
  (queueNextJob
    (scheduleJob
      (scheduleJob (initState 1 4096)
        ⟨1, 1, PackageType.transfer, ⟨10, false⟩⟩).1
      ⟨2, 2, PackageType.transfer, ⟨10, false⟩⟩).1).1

/-- Claim C1 counterexample: the claim quantifies over every sequence
of `schedule_job`, `queue_next_job` and completion-callback
operations, but `queue_next_job` performs no capacity check of its
own (its docstring says it should only be called when there is space),
so calling it while the active set is already at
`max_concurrent_packages` activates a further waiting package: the
state below is reachable by the claim's operations and has two active
packages against a cap of one. -/
theorem c1_cap_counterexample :
    QReachable c1CexState
    ∧ c1CexState.maxConcurrentPackages < c1CexState.activePackages.length :=
  ⟨QReachable.next _ (QReachable.sched _ _ (QReachable.sched _ _
      (QReachable.init 1 4096))),
   by decide⟩

/-- Reachability by the same operations restricted to the usage the
source exhibits: `queue_next_job` is only invoked when a concurrency
slot is free (its documented precondition, established by its two call
sites), and completion callbacks fire only for jobs of currently
active packages (in-flight jobs were admitted while active, and only
one job per package is in flight). -/
inductive QReachableGuarded : QState → Prop where
  | init (maxConcurrentPackages maxQueuedPackages : Nat) :
      QReachableGuarded (initState maxConcurrentPackages maxQueuedPackages)
  | sched (s : QState) (job : QJob) (h : QReachableGuarded s) :
      QReachableGuarded (scheduleJob s job).1
  | next (s : QState) (h : QReachableGuarded s)
      (hfree : s.activePackages.length < s.maxConcurrentPackages) :
      QReachableGuarded (queueNextJob s).1
  | pull (s : QState) (h : QReachableGuarded s) : QReachableGuarded (pullJob s).2
  | callback (s : QState) (job : QJob) (result : Option QJob)
      (h : QReachableGuarded s)
      (hactive : job.packageUuid ∈ s.activePackages) :
      QReachableGuarded (completionCallbacks s job result)
  | stop (s : QState) (h : QReachableGuarded s) : QReachableGuarded (stopQueue s)

/-- Claim C1 amended: in every state reachable by `schedule_job`,
completion callbacks of in-flight jobs (whose packages are active) and
`queue_next_job` calls made under its documented precondition (a free
concurrency slot), the number of active packages never exceeds
`max_concurrent_packages`.  The unguarded claim is refuted by
`c1_cap_counterexample`. -/
theorem c1_cap_invariant (s : QState) (h : QReachableGuarded s) : QInv s := by
  induction h with
  | init maxC maxQ => simp [QInv, initState]
  | sched s job h ih => exact scheduleJob_inv s job ih
  | next s h hfree ih =>
      have hle := queueNextJob_len_le s
      have hmax := queueNextJob_max s
      unfold QInv
      rw [hmax]
      omega
  | pull s h ih =>
      unfold QInv
      rw [(pullJob_active s).1, (pullJob_active s).2]
      exact ih
  | callback s job result h hactive ih =>
      exact completionCallbacks_inv s job result ih hactive
  | stop s h ih => exact ih

/-- Claim C1 amended witness: the invariant instantiated on a concrete
guarded trace that schedules one package and promotes it. -/
theorem c1_cap_invariant_witness :
    QInv (scheduleJob (initState 1 4096)
      ⟨1, 1, PackageType.transfer, ⟨10, false⟩⟩).1 :=
  c1_cap_invariant _ (QReachableGuarded.sched _ _ (QReachableGuarded.init 1 4096))

/-- Terminal-link job of package 1 used in the C4 counterexample. -/
def c4Job : QJob := ⟨1, 1, PackageType.transfer, ⟨10, true⟩⟩

/-- Waiting job of package 2 used in the C4 counterexample. -/
def c4WaitingJob : QJob := ⟨2, 2, PackageType.transfer, ⟨11, false⟩⟩

/-- Stopped queue with `max_concurrent_packages = 1`, package 1 active
with its terminal job in flight, and package 2 waiting: reached by
scheduling package 1, pulling its job for execution, scheduling
package 2 (which must wait), and calling `stop()`. -/
def c4CexState : QState :=
  stopQueue
    (scheduleJob (pullJob (scheduleJob (initState 1 4096) c4Job).1).2
      c4WaitingJob).1

/-- Claim C4 counterexample: the claim asserts that no job is admitted
after shutdown in any execution, but `_package_completed_callback` has
no shutdown check: when the in-flight terminal job of package 1
completes after `stop()`, the callback deactivates package 1 and calls
`queue_next_job`, which activates the waiting package 2 and places its
job on the active job queue — a job admitted while the shutdown event
is set. -/
theorem c4_shutdown_counterexample :
    QReachable c4CexState
    ∧ c4CexState.shutdownEvent = true
    ∧ QReachable (completionCallbacks c4CexState c4Job none)
    ∧ (completionCallbacks c4CexState c4Job none).shutdownEvent = true
    ∧ (completionCallbacks c4CexState c4Job none).jobQueue = [c4WaitingJob]
    ∧ c4WaitingJob.packageUuid
        ∈ (completionCallbacks c4CexState c4Job none).activePackages :=
  ⟨QReachable.stop _ (QReachable.sched _ _ (QReachable.pull _
      (QReachable.sched _ _ (QReachable.init 1 4096)))),
   by decide,
   QReachable.callback _ c4Job none
     (QReachable.stop _ (QReachable.sched _ _ (QReachable.pull _
       (QReachable.sched _ _ (QReachable.init 1 4096))))),
   by decide, by decide, by decide⟩

/-- Concrete state for the C5 counterexample: one active package, an
empty job queue with room, no waiting packages. -/
def c5State : QState :=
  { initState 2 4096 with activePackages := [1] }

/-- Terminal-link job of the active package used in the C5
counterexample. -/
def c5Job : QJob := ⟨3, 1, PackageType.transfer, ⟨20, true⟩⟩

/-- Next job unexpectedly returned by `Job.run` of the terminal job in
the C5 counterexample. -/
def c5NextJob : QJob := ⟨4, 1, PackageType.transfer, ⟨21, false⟩⟩

/-- Claim C5 counterexample: the claim states that whenever the
completed job's link is terminal the package is deactivated, but when
`Job.run` returns a further job on a terminal link,
`_package_completed_callback` only logs a warning and returns without
deactivating, while `_job_completed_callback` re-enqueues the returned
job; concretely, after completing the terminal job below the package
is still active. -/
theorem c5_terminal_counterexample :
    c5Job.link.is_terminal = true
    ∧ c5Job.packageUuid
        ∈ (completionCallbacks c5State c5Job (some c5NextJob)).activePackages
    ∧ (completionCallbacks c5State c5Job (some c5NextJob)).jobQueue
        = [c5NextJob] := by
  refine ⟨rfl, ?_, ?_⟩ <;> decide

/-- Claim C5 amended: for a job completing with result `result`, (i)
when the link is terminal and the result is empty the package is
deactivated and `queue_next_job` promotes one waiting package, (ii)
when the link is terminal but a next job is unexpectedly returned the
code only warns, leaves the package active and re-enqueues the
returned job via `schedule_job`, and (iii) when the link is not
terminal the active-package set is not touched and the returned next
job, if any, is re-enqueued via `schedule_job`. -/
theorem c5_completion_behaviour (s : QState) (job : QJob)
    (result : Option QJob) (nextJob : QJob) :
    (job.link.is_terminal = true → result = none →
      completionCallbacks s job result
        = (queueNextJob (deactivatePackage s job.packageUuid)).1)
    ∧ (job.link.is_terminal = true → result = some nextJob →
      completionCallbacks s job result = (scheduleJob s nextJob).1)
    ∧ (job.link.is_terminal = false → result = none →
      completionCallbacks s job result = s)
    ∧ (job.link.is_terminal = false → result = some nextJob →
      completionCallbacks s job result = (scheduleJob s nextJob).1)
    ∧ (job.link.is_terminal = false → job.packageUuid ∈ s.activePackages →
      job.packageUuid ∈ (completionCallbacks s job result).activePackages) := by
  refine ⟨?_, ?_, ?_, ?_, ?_⟩
  · intro hterm hres
    subst hres
    unfold completionCallbacks jobCompletedCallback packageCompletedCallback
    simp [hterm]
  · intro hterm hres
    subst hres
    unfold completionCallbacks jobCompletedCallback packageCompletedCallback
    simp [hterm]
  · intro hterm hres
    subst hres
    unfold completionCallbacks jobCompletedCallback
    simp [hterm]
  · intro hterm hres
    subst hres
    unfold completionCallbacks jobCompletedCallback
    simp [hterm]
  · intro hterm hmem
    unfold completionCallbacks jobCompletedCallback
    rcases result with _ | nj
    · simp [hterm, hmem]
    · simp only [hterm, Bool.false_eq_true, if_neg, not_false_eq_true]
      exact scheduleJob_mem s nj _ hmem

/-- Claim C5 amended witness: concrete terminal completion with an
empty result deactivates the package and promotes the waiting DIP
job. -/
theorem c5_completion_behaviour_witness :
    completionCallbacks c5State c5Job none
      = (queueNextJob (deactivatePackage c5State c5Job.packageUuid)).1 :=
  (c5_completion_behaviour c5State c5Job none c5NextJob).1 rfl rfl

end A3M.Queues

namespace A3M.Packages

/-!
Part 2 embeds the package-management module `a3m/server/packages.py`:
`PackageContext.load_from_db`, `get_file_replacement_mapping`,
`Package.files` and `get_package_status`.  Python dicts that the code
iterates in insertion order (`OrderedDict`, plain dicts) are embedded
as association lists with overwrite-in-place update semantics.
-/

/-- Python dict assignment on an insertion-ordered association list:
overwrite in place when the key exists, append otherwise. -/
def dictSet (d : List (String × String)) (k v : String) : List (String × String) :=
  if d.any (fun kv => kv.1 == k) then
    d.map (fun kv => if kv.1 == k then (k, v) else kv)
  else d ++ [(k, v)]

/-- Python `dict.update` / `PackageContext.update`: assign every pair
of the mapping in iteration order. -/
def pyDictUpdate (d kvs : List (String × String)) : List (String × String) :=
  kvs.foldl (fun acc kv => dictSet acc kv.1 kv.2) d

/-- Python `dict.get` specialised to the string values used here (the
keys looked up by the embedded code are always present). -/
def dictGet (d : List (String × String)) (k : String) : String :=
  (((d.find? (fun kv => kv.1 == k)).map (fun kv => kv.2)).getD "")

/-- Result of `ast.literal_eval` on a stored unit-variable value, as
far as `load_from_db` can observe it: a dict of key/value pairs, or
some other Python literal (a number, list, string, ...) that is not a
mapping. -/
inductive PyLiteral where
  | dictLiteral : List (String × String) → PyLiteral
  | nonDictLiteral : PyLiteral
deriving DecidableEq, Repr

/-- One row of the `UnitVariable` query made by `load_from_db`,
carrying the outcome of `ast.literal_eval` on its stored
`variablevalue` string (`none` embeds a `ValueError`/`SyntaxError`;
`ast.literal_eval` is standard-library code that only parses literals
and never executes the value). -/
structure UnitVariableRecord where
  literalEvalResult : Option PyLiteral
deriving DecidableEq, Repr

/-- Python exception escaping `load_from_db`: `context.update` on a
non-mapping literal raises `AttributeError`, which the surrounding
`try` does not catch (it catches only `ValueError` and
`SyntaxError`). -/
inductive PyRunError where
  | attributeError
deriving DecidableEq, Repr

/-- Loop body of `PackageContext.load_from_db` over the distinct
unit-variable rows: a row whose value fails to parse is logged and
skipped; a row parsing to a dict is merged into the context with
`context.update`; a row parsing to any other literal raises
`AttributeError` out of the method. -/
def loadFromDbAux : List UnitVariableRecord → List (String × String) →
    Except PyRunError (List (String × String))
  | [], ctx => Except.ok ctx
  | r :: rest, ctx =>
    match r.literalEvalResult with
    | none => loadFromDbAux rest ctx
    | some (PyLiteral.dictLiteral pairs) => loadFromDbAux rest (pyDictUpdate ctx pairs)
    | some PyLiteral.nonDictLiteral => Except.error PyRunError.attributeError

/-- Embedding of `PackageContext.load_from_db`: start from an empty
context and fold the unit-variable rows. -/
def packageContextLoadFromDb (records : List UnitVariableRecord) :
    Except PyRunError (List (String × String)) :=
  loadFromDbAux records []

/-- Modelled from the spec: the specified loader, under which every
malformed record is skipped and every well-formed record's key/value
pairs are merged, always producing a context. -/
def loadFromDbSpecAux (records : List UnitVariableRecord)
    (ctx : List (String × String)) : List (String × String) :=
  records.foldl
    (fun acc r =>
      match r.literalEvalResult with
      | some (PyLiteral.dictLiteral pairs) => pyDictUpdate acc pairs
      | _ => acc)
    ctx

/-- Modelled from the spec: `load_from_db` as the specification
describes it, starting from the empty context. -/
def loadFromDbSpec (records : List UnitVariableRecord) : List (String × String) :=
  loadFromDbSpecAux records []

theorem loadFromDbAux_ok_of_no_nonDict (records : List UnitVariableRecord)
    (ctx : List (String × String))
    (h : ∀ r ∈ records, r.literalEvalResult ≠ some PyLiteral.nonDictLiteral) :
    loadFromDbAux records ctx = Except.ok (loadFromDbSpecAux records ctx) := by
  induction records generalizing ctx with
  | nil => rfl
  | cons r rest ih =>
      have hr : r.literalEvalResult ≠ some PyLiteral.nonDictLiteral :=
        h r (List.mem_cons_self r rest)
      have hrest : ∀ x ∈ rest, x.literalEvalResult ≠ some PyLiteral.nonDictLiteral :=
        fun x hx => h x (List.mem_cons_of_mem r hx)
      rcases hlit : r.literalEvalResult with _ | lit
      · unfold loadFromDbAux loadFromDbSpecAux
        simp only [hlit, List.foldl_cons]
        exact ih ctx hrest
      · rcases lit with pairs | _
        · unfold loadFromDbAux loadFromDbSpecAux
          simp only [hlit, List.foldl_cons]
          exact ih (pyDictUpdate ctx pairs) hrest
        · exact absurd hlit hr

/-- Claim C6 counterexample: a stored value that parses as a Python
literal but not as a mapping (for instance the record value `"42"`) is
neither logged-and-skipped nor merged; `context.update` raises
`AttributeError` and `load_from_db` aborts without returning any
context, where the claim requires the (here empty) merged context. -/
theorem c6_load_counterexample :
    packageContextLoadFromDb [⟨some PyLiteral.nonDictLiteral⟩]
      = Except.error PyRunError.attributeError
    ∧ loadFromDbSpec [⟨some PyLiteral.nonDictLiteral⟩] = [] := by
  constructor <;> rfl

/-- Claim C6 amended: a record whose stored value fails to parse as a
Python literal is logged and skipped and contributes nothing to the
context; a record parsing to a dict has its key/value pairs merged via
`context.update`; and whenever no record parses to a non-mapping
literal, `load_from_db` returns exactly the context the specification
describes (parsing is `ast.literal_eval`, which never executes the
stored value).  A record parsing to a non-mapping literal instead
raises an uncaught `AttributeError` (see the counterexample). -/
theorem c6_load_behaviour (records : List UnitVariableRecord)
    (r : UnitVariableRecord) (rest : List UnitVariableRecord)
    (ctx pairs : List (String × String)) :
    (r.literalEvalResult = none →
      loadFromDbAux (r :: rest) ctx = loadFromDbAux rest ctx)
    ∧ (r.literalEvalResult = some (PyLiteral.dictLiteral pairs) →
      loadFromDbAux (r :: rest) ctx = loadFromDbAux rest (pyDictUpdate ctx pairs))
    ∧ ((∀ x ∈ records, x.literalEvalResult ≠ some PyLiteral.nonDictLiteral) →
      packageContextLoadFromDb records = Except.ok (loadFromDbSpec records)) := by
  refine ⟨?_, ?_, ?_⟩
  · intro h
    obtain ⟨lit⟩ := r
    cases h
    rfl
  · intro h
    obtain ⟨lit⟩ := r
    cases h
    rfl
  · intro h
    exact loadFromDbAux_ok_of_no_nonDict records [] h

/-- Claim C6 amended witness: a malformed record followed by two
well-formed records loads to the merged context of the well-formed
ones. -/
theorem c6_load_behaviour_witness :
    loadFromDbAux [⟨none⟩] [] = loadFromDbAux [] []
    ∧ packageContextLoadFromDb
        [⟨none⟩, ⟨some (PyLiteral.dictLiteral [("a", "1")])⟩,
         ⟨some (PyLiteral.dictLiteral [("b", "2"), ("a", "3")])⟩]
      = Except.ok (loadFromDbSpec
        [⟨none⟩, ⟨some (PyLiteral.dictLiteral [("a", "1")])⟩,
         ⟨some (PyLiteral.dictLiteral [("b", "2"), ("a", "3")])⟩]) :=
  ⟨(c6_load_behaviour [] ⟨none⟩ [] [] []).1 rfl,
   (c6_load_behaviour
      [⟨none⟩, ⟨some (PyLiteral.dictLiteral [("a", "1")])⟩,
       ⟨some (PyLiteral.dictLiteral [("b", "2"), ("a", "3")])⟩]
      ⟨none⟩ [] [] []).2.2 (by decide)⟩

/-- Index of the last occurrence of a character in a character list,
modelling Python's `str.rfind` (absent is reported as `none`). -/
def lastIdxOf (cs : List Char) (c : Char) : Option Nat :=
  match cs.reverse.findIdx? (fun x => x == c) with
  | none => none
  | some revIdx => some (cs.length - 1 - revIdx)

/-- Model of `os.path.join` (posix) for two components: an absolute
second component replaces the first; otherwise a separator is inserted
unless the first component is empty or already ends with one. -/
def pyPathJoin (a b : String) : String :=
  if b.startsWith "/" then b
  else if a == "" then b
  else if a.endsWith "/" then a ++ b
  else a ++ "/" ++ b

/-- Model of `os.path.dirname` (posix): everything before the last
separator, with trailing separators stripped unless the head consists
only of separators. -/
def pyDirname (p : String) : String :=
  let cs := p.toList
  match lastIdxOf cs '/' with
  | none => ""
  | some i =>
      let head := cs.take (i + 1)
      if head.all (fun c => c == '/') then String.mk head
      else String.mk ((head.reverse.dropWhile (fun c => c == '/')).reverse)

/-- Model of `os.path.basename` (posix): everything after the last
separator. -/
def pyBasename (p : String) : String :=
  let cs := p.toList
  match lastIdxOf cs '/' with
  | none => p
  | some i => String.mk (cs.drop (i + 1))

/-- Model of `os.path.splitext` (posix): split at the last dot after
the last separator, unless the basename up to that dot consists only
of dots (hidden files keep their name whole). -/
def pySplitext (p : String) : String × String :=
  let cs := p.toList
  let sepIdx : Int := match lastIdxOf cs '/' with | none => -1 | some i => (i : Int)
  let dotIdx : Int := match lastIdxOf cs '.' with | none => -1 | some i => (i : Int)
  if sepIdx < dotIdx then
    let nameStart := (sepIdx + 1).toNat
    let dotPos := dotIdx.toNat
    if ((cs.drop nameStart).take (dotPos - nameStart)).any (fun c => c != '.') then
      (String.mk (cs.take dotPos), String.mk (cs.drop dotPos))
    else (p, "")
  else (p, "")

/-- Django settings the module reads at import time
(`SHARED_DIRECTORY`, `PROCESSING_DIRECTORY`, `REJECTED_DIRECTORY`);
deployment-specific strings, passed as a parameter. -/
structure Settings where
  sharedDirectory : String
  processingDirectory : String
  rejectedDirectory : String
deriving DecidableEq, Repr

/-- Embedding of the module-level `BASE_REPLACEMENTS` dict. -/
def baseReplacements (st : Settings) : List (String × String) :=
  [("%tmpDirectory%", pyPathJoin (pyPathJoin st.sharedDirectory "tmp") ""),
   ("%processingDirectory%", st.processingDirectory),
   ("%rejectedDirectory%", st.rejectedDirectory)]

/-- Fields of a `models.File` row read by
`get_file_replacement_mapping` and `Package.files`. -/
structure FileObj where
  pk : String
  currentlocation : String
  originallocation : String
  filegrpuse : String
deriving DecidableEq, Repr

/-- Embedding of `get_file_replacement_mapping`: start from
`BASE_REPLACEMENTS`, derive the directory, name and extension parts of
the current location, resolve the absolute path by substituting the
stage directory tokens, and update the mapping with the per-file
keys. -/
def getFileReplacementMapping (st : Settings) (fileObj : FileObj)
    (unitDirectory : String) : List (String × String) :=
  let mapping := baseReplacements st
  let dirname := pyDirname fileObj.currentlocation
  let nameExt := pySplitext fileObj.currentlocation
  let name := pyBasename nameExt.1
  let ext := nameExt.2
  let absolutePath :=
    (fileObj.currentlocation.replace "%SIPDirectory%" unitDirectory).replace
      "%transferDirectory%" unitDirectory
  pyDictUpdate mapping
    [("%fileUUID%", fileObj.pk),
     ("%originalLocation%", fileObj.originallocation),
     ("%currentLocation%", fileObj.currentlocation),
     ("%fileGrpUse%", fileObj.filegrpuse),
     ("%fileDirectory%", dirname),
     ("%fileName%", name),
     ("%fileExtension%", ext.drop 1),
     ("%fileExtensionWithDot%", ext),
     ("%relativeLocation%", absolutePath),
     ("%inputFile%", absolutePath),
     ("%fileFullName%", absolutePath)]

/-- Package stages (`Stage.TRANSFER` / `Stage.INGEST`). -/
inductive Stage where
  | transfer
  | ingest
deriving DecidableEq, Repr

/-- Embedding of `Package.replacement_path_string`. -/
def replacementPathString (stage : Stage) : String :=
  match stage with
  | Stage.ingest => "%SIPDirectory%"
  | Stage.transfer => "%transferDirectory%"

/-- Fragment of a `Package` visible to `files`: its working directory
and stage. -/
structure PackageModel where
  currentPath : String
  stage : Stage
deriving DecidableEq, Repr

/-- Catalog queryset of `Package.files`: the package's `File` rows,
restricted, when a subdirectory filter is given, to rows whose current
location starts with the stage token followed by the filter. -/
def filesQueryset (pm : PackageModel) (catalog : List FileObj)
    (filterSubdir : Option String) : List FileObj :=
  match filterSubdir with
  | none => catalog
  | some sub =>
      catalog.filter
        (fun f => f.currentlocation.startsWith (replacementPathString pm.stage ++ sub))

/-- Walk root of `Package.files`: the working directory, extended by
the subdirectory filter when given. -/
def filesStartPath (pm : PackageModel) (filterSubdir : Option String) : String :=
  match filterSubdir with
  | none => pm.currentPath
  | some sub => pm.currentPath ++ sub

/-- Per-row body of the catalog phase of the `Package.files`
generator: map the queryset row through
`get_file_replacement_mapping` and yield it when its `%inputFile%`
path exists on disk (`exists_` models `os.path.exists`); rows whose
path does not exist are skipped with `continue`. -/
def catalogYieldOne (st : Settings) (exists_ : String → Bool)
    (pm : PackageModel) (f : FileObj) : Option (List (String × String)) :=
  if exists_ (dictGet (getFileReplacementMapping st f pm.currentPath) "%inputFile%")
  then some (getFileReplacementMapping st f pm.currentPath) else none

/-- Catalog phase of the `Package.files` generator over the whole
queryset. -/
def filesCatalogYields (st : Settings) (exists_ : String → Bool)
    (pm : PackageModel) (queryset : List FileObj) : List (List (String × String)) :=
  queryset.filterMap (catalogYieldOne st exists_ pm)

theorem catalogYieldOne_some (st : Settings) (exists_ : String → Bool)
    (pm : PackageModel) (f : FileObj) (m : List (String × String))
    (h : catalogYieldOne st exists_ pm f = some m) :
    m = getFileReplacementMapping st f pm.currentPath
    ∧ exists_ (dictGet m "%inputFile%") = true := by
  unfold catalogYieldOne at h
  generalize hg : getFileReplacementMapping st f pm.currentPath = gm at h
  split at h
  · cases h
    rw [← hg]
    constructor
    · rfl
    · rw [hg]
      assumption
  · cases h

theorem catalogYieldOne_of_exists (st : Settings) (exists_ : String → Bool)
    (pm : PackageModel) (f : FileObj)
    (hex : exists_ (dictGet (getFileReplacementMapping st f pm.currentPath)
        "%inputFile%") = true) :
    catalogYieldOne st exists_ pm f
      = some (getFileReplacementMapping st f pm.currentPath) := by
  unfold catalogYieldOne
  generalize hg : getFileReplacementMapping st f pm.currentPath = gm at hex ⊢
  rw [if_pos hex]

/-- Contents of the `files_returned_already` set after the catalog
phase: the `%inputFile%` path of every yielded catalog mapping. -/
def filesReturnedAlready (st : Settings) (exists_ : String → Bool)
    (pm : PackageModel) (queryset : List FileObj) : List String :=
  (filesCatalogYields st exists_ pm queryset).map
    (fun m => dictGet m "%inputFile%")

/-- Mapping yielded for a file discovered by the filesystem walk. -/
def walkFileMapping (filePath : String) : List (String × String) :=
  [("%relativeLocation%", filePath),
   ("%fileUUID%", "None"),
   ("%fileGrpUse%", "")]

/-- Walk phase of the `Package.files` generator: yield a minimal
mapping for every walked file path not already returned by the catalog
phase. -/
def filesWalkYields (walkPaths : List String) (returned : List String) :
    List (List (String × String)) :=
  walkPaths.filterMap
    (fun p => if p ∈ returned then none else some (walkFileMapping p))

/-- Embedding of the `Package.files` generator: the catalog yields
followed by the filesystem-walk yields, where `walkFn` models the file
paths produced by `os.walk` from a given root in directory order. -/
def filesList (st : Settings) (pm : PackageModel) (catalog : List FileObj)
    (walkFn : String → List String) (exists_ : String → Bool)
    (filterSubdir : Option String) : List (List (String × String)) :=
  let queryset := filesQueryset pm catalog filterSubdir
  let startPath := filesStartPath pm filterSubdir
  filesCatalogYields st exists_ pm queryset
    ++ filesWalkYields (walkFn startPath) (filesReturnedAlready st exists_ pm queryset)

theorem dictGet_walkFileMapping_rel (p : String) :
    dictGet (walkFileMapping p) "%relativeLocation%" = p := rfl

/-- Claim C7: `Package.files` yields the union of catalog entries and
filesystem-walk entries, catalog first and walk second, de-duplicated
on absolute path, with non-existent catalog entries skipped: (i) the
output is exactly the catalog yields followed by the walk yields, (ii)
every catalog yield has an existing `%inputFile%` path, (iii) every
existing catalog entry of the queryset is yielded, (iv) every walk
yield's absolute path avoids the paths already returned by the catalog
phase, and (v) every walked path not already returned is yielded. -/
theorem c7_files_union (st : Settings) (pm : PackageModel)
    (catalog : List FileObj) (walkFn : String → List String)
    (exists_ : String → Bool) (filterSubdir : Option String) :
    (filesList st pm catalog walkFn exists_ filterSubdir
      = filesCatalogYields st exists_ pm (filesQueryset pm catalog filterSubdir)
        ++ filesWalkYields (walkFn (filesStartPath pm filterSubdir))
            (filesReturnedAlready st exists_ pm (filesQueryset pm catalog filterSubdir)))
    ∧ (∀ m ∈ filesCatalogYields st exists_ pm (filesQueryset pm catalog filterSubdir),
        exists_ (dictGet m "%inputFile%") = true)
    ∧ (∀ f ∈ filesQueryset pm catalog filterSubdir,
        exists_ (dictGet (getFileReplacementMapping st f pm.currentPath) "%inputFile%")
            = true →
        getFileReplacementMapping st f pm.currentPath
          ∈ filesList st pm catalog walkFn exists_ filterSubdir)
    ∧ (∀ m ∈ filesWalkYields (walkFn (filesStartPath pm filterSubdir))
          (filesReturnedAlready st exists_ pm (filesQueryset pm catalog filterSubdir)),
        dictGet m "%relativeLocation%"
          ∉ filesReturnedAlready st exists_ pm (filesQueryset pm catalog filterSubdir))
    ∧ (∀ p ∈ walkFn (filesStartPath pm filterSubdir),
        p ∉ filesReturnedAlready st exists_ pm (filesQueryset pm catalog filterSubdir) →
        walkFileMapping p ∈ filesList st pm catalog walkFn exists_ filterSubdir) := by
  refine ⟨rfl, ?_, ?_, ?_, ?_⟩
  · intro m hm
    rcases List.mem_filterMap.mp hm with ⟨f, hf, heq⟩
    exact (catalogYieldOne_some st exists_ pm f m heq).2
  · intro f hf hex
    unfold filesList
    refine List.mem_append_left _ ?_
    exact List.mem_filterMap.mpr ⟨f, hf, catalogYieldOne_of_exists st exists_ pm f hex⟩
  · intro m hm
    rcases List.mem_filterMap.mp hm with ⟨p, hp, heq⟩
    generalize hr : filesReturnedAlready st exists_ pm
        (filesQueryset pm catalog filterSubdir) = returned at heq ⊢
    split at heq
    · cases heq
    · cases heq
      rw [dictGet_walkFileMapping_rel]
      assumption
  · intro p hp hmem
    unfold filesList
    refine List.mem_append_right _ ?_
    refine List.mem_filterMap.mpr ⟨p, hp, ?_⟩
    generalize hr : filesReturnedAlready st exists_ pm
        (filesQueryset pm catalog filterSubdir) = returned at hmem ⊢
    rw [if_neg hmem]

/-- Claim C7 witness: with an empty catalog and a one-file walk, the
walked file's mapping is yielded by `Package.files`. -/
theorem c7_files_union_witness :
    walkFileMapping "/proc/transfer/x/w.txt"
      ∈ filesList ⟨"/shared/", "/proc/", "/rej/"⟩ ⟨"/proc/transfer/x/", Stage.transfer⟩
          [] (fun _ => ["/proc/transfer/x/w.txt"]) (fun _ => true) none :=
  (c7_files_union ⟨"/shared/", "/proc/", "/rej/"⟩ ⟨"/proc/transfer/x/", Stage.transfer⟩
      [] (fun _ => ["/proc/transfer/x/w.txt"]) (fun _ => true) none).2.2.2.2
    "/proc/transfer/x/w.txt" (by simp) (by simp [filesReturnedAlready, filesCatalogYields, filesQueryset])

/-- Claim C10: every file discovered only by the filesystem walk is
yielded with a replacement mapping of exactly the three keys
`%relativeLocation%`, `%fileUUID%` and `%fileGrpUse%`, where
`%fileUUID%` is the literal string `"None"` (present, not absent) and
`%fileGrpUse%` is the empty string. -/
theorem c10_walk_mapping (st : Settings) (pm : PackageModel)
    (catalog : List FileObj) (walkFn : String → List String)
    (exists_ : String → Bool) (filterSubdir : Option String) (p : String)
    (hp : p ∈ walkFn (filesStartPath pm filterSubdir))
    (hnew : p ∉ filesReturnedAlready st exists_ pm
        (filesQueryset pm catalog filterSubdir)) :
    walkFileMapping p ∈ filesList st pm catalog walkFn exists_ filterSubdir
    ∧ (walkFileMapping p).map Prod.fst
        = ["%relativeLocation%", "%fileUUID%", "%fileGrpUse%"]
    ∧ dictGet (walkFileMapping p) "%relativeLocation%" = p
    ∧ dictGet (walkFileMapping p) "%fileUUID%" = "None"
    ∧ dictGet (walkFileMapping p) "%fileGrpUse%" = "" := by
  refine ⟨?_, rfl, rfl, rfl, rfl⟩
  unfold filesList
  refine List.mem_append_right _ ?_
  refine List.mem_filterMap.mpr ⟨p, hp, ?_⟩
  simp [hnew]

/-- Claim C10 witness: the concrete walk-only file of the C7 witness
carries exactly the three keys with the stated values. -/
theorem c10_walk_mapping_witness :
    walkFileMapping "/proc/transfer/x/w.txt"
      ∈ filesList ⟨"/shared/", "/proc/", "/rej/"⟩ ⟨"/proc/transfer/x/", Stage.transfer⟩
          [] (fun _ => ["/proc/transfer/x/w.txt"]) (fun _ => true) none
    ∧ dictGet (walkFileMapping "/proc/transfer/x/w.txt") "%fileUUID%" = "None" :=
  ⟨(c10_walk_mapping ⟨"/shared/", "/proc/", "/rej/"⟩ ⟨"/proc/transfer/x/", Stage.transfer⟩
      [] (fun _ => ["/proc/transfer/x/w.txt"]) (fun _ => true) none
      "/proc/transfer/x/w.txt" (by simp)
      (by simp [filesReturnedAlready, filesCatalogYields, filesQueryset])).1,
   (c10_walk_mapping ⟨"/shared/", "/proc/", "/rej/"⟩ ⟨"/proc/transfer/x/", Stage.transfer⟩
      [] (fun _ => ["/proc/transfer/x/w.txt"]) (fun _ => true) none
      "/proc/transfer/x/w.txt" (by simp)
      (by simp [filesReturnedAlready, filesCatalogYields, filesQueryset])).2.2.2.1⟩

/-- Fields of a `models.SIP` row read by `get_package_status`. -/
structure SIPRow where
  pk : String
  transfer_id : Option String
deriving DecidableEq, Repr

/-- Fields of a `models.Job` row read by `get_package_status`:
identity, type and group strings, status step, and the creation
timestamp pair used for ordering. -/
structure JobRow where
  jobuuid : String
  sipuuid : String
  jobtype : String
  microservicegroup : String
  currentstep : Nat
  createdtime : Nat
  createdtimedec : Nat
deriving DecidableEq, Repr

/-- Relevant database contents for `get_package_status`. -/
structure Db where
  sips : List SIPRow
  jobs : List JobRow
deriving DecidableEq, Repr

/-- Entry of `package_queue.active_packages` as `get_package_status`
reads it: the key and the package's `subid` (transfer uuid during
Transfer, sip uuid during Ingest). -/
structure ActivePackageEntry where
  uuid : String
  subid : String
deriving DecidableEq, Repr

/-- Exceptions raised by `get_package_status`:
`PackageNotFoundError` for an unknown id, and the generic `Exception`
raised when the status cannot be determined. -/
inductive StatusError where
  | packageNotFound
  | cannotBeDetermined
deriving DecidableEq, Repr

/-- Wire values of the `PackageStatus` protobuf enum. -/
def PACKAGE_STATUS_FAILED : Nat := 1

/-- Wire value of `PACKAGE_STATUS_REJECTED`. -/
def PACKAGE_STATUS_REJECTED : Nat := 2

/-- Wire value of `PACKAGE_STATUS_COMPLETE`. -/
def PACKAGE_STATUS_COMPLETE : Nat := 3

/-- Wire value of `PACKAGE_STATUS_PROCESSING`. -/
def PACKAGE_STATUS_PROCESSING : Nat := 4

/-- Embedding of the `PackageStatus` dataclass returned by
`get_package_status` (the protobuf conversion of the history rows is
external; the rows themselves are kept). -/
structure PackageStatusResult where
  status : Option Nat
  job : Option String
  jobs : List JobRow
deriving DecidableEq, Repr

/-- Contiguous-sublist test over character lists. -/
def listContainsSub : List Char → List Char → Bool
  | [], needle => needle.isEmpty
  | c :: rest, needle => needle.isPrefixOf (c :: rest) || listContainsSub rest needle

/-- Substring test over strings, modelling Python's `in` operator on
`str`. -/
def strContainsSub (s sub : String) : Bool :=
  listContainsSub s.toList sub.toList

/-- Embedding of the inner `get_latest_job` helper: the job row for
the unit, maximal in the Django descending order on
(`createdtime`, `createdtimedec`); `first()` is `none` when no row
matches. -/
def getLatestJob (jobs : List JobRow) (unitId : String) : Option JobRow :=
  (jobs.filter (fun j => j.sipuuid == unitId)).foldl
    (fun best j =>
      match best with
      | none => some j
      | some b =>
          if b.createdtime < j.createdtime
              ∨ (b.createdtime = j.createdtime
                  ∧ b.createdtimedec < j.createdtimedec)
          then some j else some b)
    none

/-- Insertion step for the ascending `order_by("createdtime")` of the
history query. -/
def insertByCreatedtime (j : JobRow) : List JobRow → List JobRow
  | [] => [j]
  | x :: xs =>
      if j.createdtime < x.createdtime then j :: x :: xs
      else x :: insertByCreatedtime j xs

/-- History rows of the package: jobs of the sip or its transfer,
ordered by ascending creation time. -/
def historyJobs (db : Db) (sip : SIPRow) : List JobRow :=
  ((db.jobs.filter
      (fun j => j.sipuuid == sip.pk
        || (match sip.transfer_id with
            | some tid => j.sipuuid == tid
            | none => false))).foldr insertByCreatedtime [])

/-- Terminal-status classification of `get_package_status` for an
inactive package's latest job row: `failed` in the lowercased group
wins, then `reject`, then the `a3m - Store AIP` job type; anything
else raises. -/
def classifyJobStatus (job : JobRow) : Option Nat :=
  if strContainsSub job.microservicegroup.toLower "failed" then
    some PACKAGE_STATUS_FAILED
  else if strContainsSub job.microservicegroup.toLower "reject" then
    some PACKAGE_STATUS_REJECTED
  else if job.jobtype == "a3m - Store AIP" then
    some PACKAGE_STATUS_COMPLETE
  else none

/-- Embedding of `get_package_status`: look up the SIP row (raising
`PackageNotFoundError` when absent); for an active package answer
`PROCESSING` with the `jobtype` of the latest job of the package's
`subid`; for an inactive package classify the latest job row (falling
back to the transfer's jobs, then to a bare `PROCESSING` answer) and
attach the ordered history. -/
def getPackageStatus (activePackages : List ActivePackageEntry) (db : Db)
    (packageId : String) : Except StatusError PackageStatusResult :=
  match db.sips.find? (fun s => s.pk == packageId) with
  | none => Except.error StatusError.packageNotFound
  | some sip =>
    match activePackages.find? (fun p => p.uuid == packageId) with
    | some package =>
        let job := getLatestJob db.jobs package.subid
        Except.ok
          { status := some PACKAGE_STATUS_PROCESSING
            job := job.map (fun j => j.jobtype)
            jobs := [] }
    | none =>
        let step2 (job : JobRow) : Except StatusError PackageStatusResult :=
          match classifyJobStatus job with
          | none => Except.error StatusError.cannotBeDetermined
          | some status =>
              Except.ok
                { status := some status
                  job := some job.microservicegroup
                  jobs := historyJobs db sip }
        match getLatestJob db.jobs packageId with
        | some job => step2 job
        | none =>
          match sip.transfer_id with
          | none => Except.error StatusError.cannotBeDetermined
          | some transferId =>
            match getLatestJob db.jobs transferId with
            | none =>
                Except.ok
                  { status := some PACKAGE_STATUS_PROCESSING
                    job := none
                    jobs := [] }
            | some job => step2 job

/-- Claim C8 counterexample: for an active package the code returns
the `jobtype` of the latest recorded job, not its microservice group
name as the claim states; on a database whose latest job has job type
`"TypeA"` and microservice group `"GroupB"`, the returned `job` field
is `"TypeA"`. -/
theorem c8_status_counterexample :
    getPackageStatus [⟨"p", "t"⟩]
        ⟨[⟨"p", some "tr"⟩], [⟨"j1", "t", "TypeA", "GroupB", 2, 5, 0⟩]⟩ "p"
      = Except.ok
          { status := some PACKAGE_STATUS_PROCESSING
            job := some "TypeA"
            jobs := [] }
    ∧ ("TypeA" : String) ≠ "GroupB" := by
  constructor
  · rfl
  · decide

/-- Claim C8 amended: `get_package_status` raises
`PackageNotFoundError` when no SIP row has the requested id; and for a
currently active package it returns `PACKAGE_STATUS_PROCESSING`
together with the job type name (not the microservice group) of the
latest job recorded for the package's `subid`. -/
theorem c8_status_read (activePackages : List ActivePackageEntry)
    (db : Db) (packageId : String) (package : ActivePackageEntry)
    (sip : SIPRow) :
    (db.sips.find? (fun s => s.pk == packageId) = none →
      getPackageStatus activePackages db packageId
        = Except.error StatusError.packageNotFound)
    ∧ (db.sips.find? (fun s => s.pk == packageId) = some sip →
      activePackages.find? (fun p => p.uuid == packageId) = some package →
      getPackageStatus activePackages db packageId
        = Except.ok
            { status := some PACKAGE_STATUS_PROCESSING
              job := (getLatestJob db.jobs package.subid).map (fun j => j.jobtype)
              jobs := [] }) := by
  constructor
  · intro h
    unfold getPackageStatus
    rw [h]
  · intro hsip hactive
    unfold getPackageStatus
    rw [hsip, hactive]

/-- Claim C8 amended witness: unknown ids raise `PackageNotFound`, and
the concrete active package of the counterexample database reads back
as processing with the latest job's type name. -/
theorem c8_status_read_witness :
    getPackageStatus [⟨"p", "t"⟩]
        ⟨[⟨"p", some "tr"⟩], [⟨"j1", "t", "TypeA", "GroupB", 2, 5, 0⟩]⟩ "q"
      = Except.error StatusError.packageNotFound
    ∧ getPackageStatus [⟨"p", "t"⟩]
        ⟨[⟨"p", some "tr"⟩], [⟨"j1", "t", "TypeA", "GroupB", 2, 5, 0⟩]⟩ "p"
      = Except.ok
          { status := some PACKAGE_STATUS_PROCESSING
            job := (getLatestJob [⟨"j1", "t", "TypeA", "GroupB", 2, 5, 0⟩] "t").map
              (fun j => j.jobtype)
            jobs := [] } :=
  ⟨(c8_status_read [⟨"p", "t"⟩]
      ⟨[⟨"p", some "tr"⟩], [⟨"j1", "t", "TypeA", "GroupB", 2, 5, 0⟩]⟩ "q"
      ⟨"p", "t"⟩ ⟨"p", some "tr"⟩).1 (by decide),
   (c8_status_read [⟨"p", "t"⟩]
      ⟨[⟨"p", some "tr"⟩], [⟨"j1", "t", "TypeA", "GroupB", 2, 5, 0⟩]⟩ "p"
      ⟨"p", "t"⟩ ⟨"p", some "tr"⟩).2 (by decide) (by decide)⟩

end A3M.Packages
